import Mathlib

/-!
# ping: ICMP echo client (`main.go`)

A shallow embedding of the sender (Prober) and receiver (Correlator) loops of
`main.go`, for both the IPv4 and the IPv6 pipeline.  Input/output is made
explicit: every call into the operating system or into the ICMP library is
answered by an `Env`, and each function returns the list of effects it
performs, in program order.
-/

namespace Ping

/-! ## Go integers and byte strings -/

/-- Largest value of Go's `int` on a 64-bit platform (`math.MaxInt`). -/
def maxInt : Int := 2 ^ 63 - 1

/-- Two's-complement wrap-around of a 64-bit Go `int` (result of `x++` and the like). -/
def wrapInt (x : Int) : Int := (x + 2 ^ 63) % 2 ^ 64 - 2 ^ 63

/-- A Go `[]byte`; every element is a value below 256. -/
abbrev Bytes := List Nat

/-- A `net.IP`. -/
abbrev IP := List Nat

/-- Go's `[]byte(s)`: the UTF-8 encoding of the string. -/
def goBytes (s : String) : Bytes := (s.data.flatMap String.utf8EncodeChar).map UInt8.toNat

/-! ## Data model (`icmp.Message`, `icmp.Echo`) -/

/-- The `icmp.Type` interface: an `ipv4.ICMPType` or an `ipv6.ICMPType`. -/
inductive ICMPType where
  | ipv4 (t : Nat)
  | ipv6 (t : Nat)
deriving DecidableEq, Repr

/-- The constant `ipv4.ICMPTypeEchoReply`. -/
def ipv4ICMPTypeEchoReply : ICMPType := .ipv4 0
/-- The constant `ipv4.ICMPTypeEcho` (the IPv4 echo request). -/
def ipv4ICMPTypeEcho : ICMPType := .ipv4 8
/-- The constant `ipv6.ICMPTypeEchoRequest`. -/
def ipv6ICMPTypeEchoRequest : ICMPType := .ipv6 128
/-- The constant `ipv6.ICMPTypeEchoReply`. -/
def ipv6ICMPTypeEchoReply : ICMPType := .ipv6 129

/-- The struct `icmp.Echo`.  `ID` is never negative in this program (it is a masked
process id or a decoded 16-bit field); `Seq` is a Go `int`. -/
structure Echo where
  ID : Nat
  Seq : Int
  Data : Bytes
deriving DecidableEq, Repr

/-- The interface `icmp.MessageBody`: an `*icmp.Echo`, or a body of any other dynamic type. -/
inductive MessageBody where
  | echo (e : Echo)
  | raw (data : Bytes)
deriving DecidableEq, Repr

/-- The struct `icmp.Message`; `Body = none` is the nil interface value. -/
structure Message where
  Type_ : ICMPType
  Code : Nat
  Checksum : Nat
  Body : Option MessageBody
deriving DecidableEq, Repr

/-- Destination of a write: `&net.IPAddr{IP: target}` or `&net.UDPAddr{IP: target}`. -/
inductive Addr where
  | ipAddr (ip : IP)
  | udpAddr (ip : IP)
deriving DecidableEq, Repr

/-! ## Effects -/

/-- One observable step of a run. -/
inductive Event where
  /-- The call `msg.Marshal(nil)` and the slice it returned (`none` is the nil slice). -/
  | marshal (msg : Message) (wb : Option Bytes)
  /-- The call `c.WriteTo(wb, nil, addr)` and whether it succeeded. -/
  | writeTo (wb : Option Bytes) (addr : Addr) (ok : Bool)
  /-- The call `fmt.Println(text, target)`. -/
  | println (text : String) (target : IP)
  /-- The call `time.Sleep(seconds * time.Second)`. -/
  | sleep (seconds : Nat)
  /-- The call `c.ReadFrom(buffer)`: `none` for an error, else `buffer[:n]`. -/
  | readFrom (r : Option Bytes)
  /-- The match notice printed by `fmt.Printf` with the target and `echoReply.Seq`. -/
  | printf (target : IP) (seq : Int)
  /-- The send `done <- true`. -/
  | done
  /-- A run-time panic (nil pointer dereference); nothing follows it. -/
  | panic
deriving DecidableEq, Repr

/-- Everything outside `main.go` that the two loops consult. -/
structure Env where
  /-- Value of `os.Getpid()`. -/
  getpid : Nat
  /-- Slice returned by `msg.Marshal(nil)` in iteration `i` (`none`: nil slice, an error). -/
  marshal : Int → Message → Option Bytes
  /-- Whether the `WriteTo` of iteration `i` succeeds. -/
  writeTo : Int → Option Bytes → Addr → Bool
  /-- Outcome of the `ReadFrom` of iteration `i`: `none` for an error, else the datagram. -/
  readFrom : Int → Option Bytes
  /-- Message pointer returned by `icmp.ParseMessage(proto, b)` (`none`: nil, an error). -/
  parseMessage : Nat → Bytes → Option Message

/-! ## The sender (`icmpSender4`, `icmpSender6`) -/

/-- The `for i := 0; i < nmpackets; i++` loop of the senders, from the state
`(i, seqnumber)`, followed by `done <- true`.  The two senders differ in the message
type, the address type and the text of the notice.  The counter `i` cannot overflow, as
`i < nmpackets` when it is incremented; `seqnumber++` wraps like any Go `int`. -/
def senderLoop (env : Env) (typ : ICMPType) (mkAddr : IP → Addr) (text : String)
    (target : IP) (nmpackets : Int) (id : Nat) (i seqnumber : Int) : List Event :=
  if i < nmpackets then
    let msg : Message :=
      { Type_ := typ, Code := 0, Checksum := 0,
        Body := some (.echo { ID := id, Seq := seqnumber, Data := goBytes "ping" }) }
    let wb := env.marshal i msg
    let addr := mkAddr target
    Event.marshal msg wb :: Event.writeTo wb addr (env.writeTo i wb addr) ::
      Event.println text target :: Event.sleep 1 ::
      senderLoop env typ mkAddr text target nmpackets id (i + 1) (wrapInt (seqnumber + 1))
  else
    [Event.done]
termination_by (nmpackets - i).toNat
decreasing_by omega

/-- The function `icmpSender4`; the fourth parameter is the unnamed (`_`) packet size. -/
def icmpSender4 (env : Env) (target : IP) (nmpackets : Int) (_szpacket : Int) : List Event :=
  let id := env.getpid &&& 0xffff
  senderLoop env ipv4ICMPTypeEcho Addr.ipAddr "Отправлен ICMP-запрос для IPv4 на"
    target nmpackets id 0 1

/-- The function `icmpSender6`; the fourth parameter is the unnamed (`_`) packet size. -/
def icmpSender6 (env : Env) (target : IP) (nmpackets : Int) (_szpacket : Int) : List Event :=
  let id := env.getpid &&& 0xffff
  senderLoop env ipv6ICMPTypeEchoRequest Addr.udpAddr "Отправлен ICMP-запрос для IPv6 на"
    target nmpackets id 0 1

/-! ## The receiver (`icmpReceiver4`, `icmpReceiver6`) -/

/-- One iteration of the receiver loop on the outcome `r` of its `ReadFrom`: the effects,
and whether the loop goes on (`false`: the iteration panicked). -/
def receiverStep (parse : Nat → Bytes → Option Message) (proto : Nat) (target : IP)
    (id : Nat) (r : Option Bytes) : List Event × Bool :=
  match r with
  | none => ([Event.readFrom none], true)
  | some pkt =>
    let b := pkt.take 1500
    match parse proto b with
    | none => ([Event.readFrom (some b), Event.panic], false)
    | some msg =>
      match msg.Body with
      | some (.echo echoReply) =>
        if echoReply.ID = id then
          ([Event.readFrom (some b), Event.printf target echoReply.Seq], true)
        else
          ([Event.readFrom (some b)], true)
      | _ => ([Event.readFrom (some b)], true)

/-- The `for i := 0; i < nmpackets; i++` loop of the receivers, from index `i`, followed
by `done <- true`. -/
def receiverLoop (env : Env) (proto : Nat) (target : IP) (nmpackets : Int) (id : Nat)
    (i : Int) : List Event :=
  if i < nmpackets then
    let step := receiverStep env.parseMessage proto target id (env.readFrom i)
    if step.2 then
      step.1 ++ receiverLoop env proto target nmpackets id (i + 1)
    else
      step.1
  else
    [Event.done]
termination_by (nmpackets - i).toNat
decreasing_by omega

/-- The function `icmpReceiver4`. -/
def icmpReceiver4 (env : Env) (target : IP) (nmpackets : Int) : List Event :=
  let id := env.getpid &&& 0xffff
  receiverLoop env 1 target nmpackets id 0

/-- The function `icmpReceiver6`. -/
def icmpReceiver6 (env : Env) (target : IP) (nmpackets : Int) : List Event :=
  let id := env.getpid &&& 0xffff
  receiverLoop env 58 target nmpackets id 0

/-! ## Socket binding (`ping4`, `ping6`) -/

/-- The arguments of a `net.ListenPacket(network, address)` call. -/
structure ListenCall where
  network : String
  address : String
deriving DecidableEq, Repr

/-- The `net.ListenPacket` call made by `ping6` for a given zone and source. -/
def ping6Listen (zone source : String) : ListenCall :=
  let sourceAddr := "::"
  let sourceAddr := if source.utf8ByteSize > 0 then source else sourceAddr
  let sourceAddr := if zone.utf8ByteSize > 0 then sourceAddr ++ ("%" ++ zone) else sourceAddr
  { network := "ip6:ipv6-icmp", address := sourceAddr }

/-- The `net.ListenPacket` call made by `ping4` for a given source. -/
def ping4Listen (source : String) : ListenCall :=
  { network := "ip4:icmp", address := source }

/-! ## Wire format of the ICMP library -/

/-- Modelled from the spec: sum of the 16-bit words of a byte string, low byte first, as
used by the Internet checksum of standard ICMP framing (the library that computes it is not
under `src/`). -/
def sum16 : Bytes → Nat
  | lo :: hi :: rest => (hi * 256 + lo) + sum16 rest
  | [lo] => lo
  | [] => 0

/-- Modelled from the spec: the 16-bit one's-complement Internet checksum of standard ICMP
framing; the library `golang.org/x/net/icmp` that computes it is not under `src/`. -/
def checksum (b : Bytes) : Nat :=
  let s := sum16 b % 2 ^ 32
  let s := s / 65536 + s % 65536
  let s := s + s / 65536
  65535 - s % 65536

/-- Modelled from the spec: wire form of an Echo body (`(*icmp.Echo).Marshal`, not under
`src/`): 16-bit identifier, 16-bit sequence number, both big-endian, then the payload. -/
def Echo.Marshal (p : Echo) : Bytes :=
  let id := p.ID % 65536
  let seq := (p.Seq % 65536).toNat
  [id / 256, id % 256, seq / 256, seq % 256] ++ p.Data

/-- Modelled from the spec: `(*icmp.Message).Marshal(nil)` of the ICMP library (not under
`src/`), standard ICMP framing: type, code, checksum, body.  The checksum is filled in
for ICMPv4 and left zero for ICMPv6, where the kernel computes it. -/
def Marshal (m : Message) : Option Bytes :=
  let body : Bytes :=
    match m.Body with
    | some (.echo p) => p.Marshal
    | some (.raw data) => data
    | none => []
  match m.Type_ with
  | .ipv4 t =>
    let s := checksum ([t % 256, m.Code % 256, 0, 0] ++ body)
    some ([t % 256, m.Code % 256, s % 256, s / 256] ++ body)
  | .ipv6 t => some ([t % 256, m.Code % 256, 0, 0] ++ body)

/-- Modelled from the spec: decoder of an Echo body (`parseEcho` of the ICMP library, not
under `src/`); it fails on fewer than four bytes. -/
def parseEcho (b : Bytes) : Option MessageBody :=
  match b with
  | i0 :: i1 :: s0 :: s1 :: data =>
    some (.echo { ID := i0 * 256 + i1, Seq := ((s0 * 256 + s1 : Nat) : Int), Data := data })
  | _ => none

/-- Modelled from the spec: `icmp.ParseMessage(proto, b)` of the ICMP library (not under
`src/`).  It fails on fewer than four bytes and on a protocol number other than 1 and 58;
echo requests and echo replies get an Echo body; every other message type is given an
opaque non-Echo body. -/
def ParseMessage (proto : Nat) (b : Bytes) : Option Message :=
  match b with
  | t :: c :: c0 :: c1 :: rest =>
    if proto = 1 then
      let body := if t = 8 ∨ t = 0 then parseEcho rest else some (.raw rest)
      body.map fun bd => { Type_ := .ipv4 t, Code := c, Checksum := c0 * 256 + c1, Body := some bd }
    else if proto = 58 then
      let body := if t = 128 ∨ t = 129 then parseEcho rest else some (.raw rest)
      body.map fun bd => { Type_ := .ipv6 t, Code := c, Checksum := c0 * 256 + c1, Body := some bd }
    else
      none
  | _ => none

/-- The environment in which the ICMP library is the one modelled above. -/
def libEnv (pid : Nat) (reads : Int → Option Bytes) (writes : Int → Bool) : Env where
  getpid := pid
  marshal := fun _ msg => Marshal msg
  writeTo := fun i _ _ => writes i
  readFrom := reads
  parseMessage := ParseMessage

/-! ## Observations on a run -/

/-- The messages built (and handed to `Marshal`), in order. -/
def builtRequests : List Event → List Message
  | [] => []
  | Event.marshal msg _ :: rest => msg :: builtRequests rest
  | _ :: rest => builtRequests rest

/-- The `WriteTo` calls, in order: the bytes written and whether the write succeeded. -/
def writeAttempts : List Event → List (Option Bytes × Bool)
  | [] => []
  | Event.writeTo wb _ ok :: rest => (wb, ok) :: writeAttempts rest
  | _ :: rest => writeAttempts rest

/-- The `ReadFrom` calls, in order, with their outcomes. -/
def readAttempts : List Event → List (Option Bytes)
  | [] => []
  | Event.readFrom r :: rest => r :: readAttempts rest
  | _ :: rest => readAttempts rest

/-- The sequence numbers of the match notices, in order. -/
def notices : List Event → List Int
  | [] => []
  | Event.printf _ seq :: rest => seq :: notices rest
  | _ :: rest => notices rest

/-- The sequence number carried by a message, when its body is an Echo. -/
def Message.seq? (m : Message) : Option Int :=
  match m.Body with
  | some (.echo e) => some e.Seq
  | _ => none

/-- The identifier carried by a message, when its body is an Echo. -/
def Message.id? (m : Message) : Option Nat :=
  match m.Body with
  | some (.echo e) => some e.ID
  | _ => none

/-- The payload carried by a message, when its body is an Echo. -/
def Message.data? (m : Message) : Option Bytes :=
  match m.Body with
  | some (.echo e) => some e.Data
  | _ => none

/-- The message literal built by a sender iteration with identifier `id` and `seqnumber = seq`. -/
def probe (typ : ICMPType) (id : Nat) (seq : Int) : Message :=
  { Type_ := typ, Code := 0, Checksum := 0,
    Body := some (.echo { ID := id, Seq := seq, Data := goBytes "ping" }) }

/-! ## Auxiliary lemmas -/

theorem utf8ByteSize_pos_iff (s : String) : s.utf8ByteSize > 0 ↔ s ≠ "" := by
  cases s with
  | mk data =>
    cases data with
    | nil => simp [String.utf8ByteSize, String.utf8ByteSize.go]
    | cons c cs =>
      have hc := Char.utf8Size_pos c
      simp only [String.utf8ByteSize, String.utf8ByteSize.go]
      constructor
      · intro _ h
        have := congrArg String.data h
        simp at this
      · intro _
        omega

theorem wrapInt_of_range (x : Int) (h0 : 0 ≤ x) (h1 : x ≤ maxInt) : wrapInt x = x := by
  unfold wrapInt
  unfold maxInt at h1
  rw [Int.emod_eq_of_lt (by omega) (by omega)]
  omega

theorem goBytes_ping : goBytes "ping" = [112, 105, 110, 103] := by decide

theorem and_mask_lt (pid : Nat) : pid &&& 0xffff < 65536 :=
  Nat.lt_of_le_of_lt Nat.and_le_right (by decide)

theorem senderLoop_lt (env : Env) (typ : ICMPType) (mkAddr : IP → Addr) (text : String)
    (target : IP) (n : Int) (id : Nat) (i seq : Int) (h : i < n) :
    senderLoop env typ mkAddr text target n id i seq =
      Event.marshal (probe typ id seq) (env.marshal i (probe typ id seq)) ::
      Event.writeTo (env.marshal i (probe typ id seq)) (mkAddr target)
        (env.writeTo i (env.marshal i (probe typ id seq)) (mkAddr target)) ::
      Event.println text target :: Event.sleep 1 ::
      senderLoop env typ mkAddr text target n id (i + 1) (wrapInt (seq + 1)) := by
  rw [senderLoop]
  simp [h, probe]

theorem senderLoop_ge (env : Env) (typ : ICMPType) (mkAddr : IP → Addr) (text : String)
    (target : IP) (n : Int) (id : Nat) (i seq : Int) (h : ¬ i < n) :
    senderLoop env typ mkAddr text target n id i seq = [Event.done] := by
  rw [senderLoop]
  simp [h]

theorem builtRequests_senderLoop_seq (env : Env) (typ : ICMPType) (mkAddr : IP → Addr)
    (text : String) (target : IP) (n : Int) (id : Nat) (hn : n ≤ maxInt) :
    ∀ (k : Nat) (i seq : Int), (n - i).toNat = k → 0 ≤ i → (i < n → seq = i + 1) →
      builtRequests (senderLoop env typ mkAddr text target n id i seq) =
        (List.range k).map (fun (j : Nat) => probe typ id (i + 1 + (j : Int))) := by
  intro k
  induction k with
  | zero =>
    intro i seq hk _ _
    rw [senderLoop_ge _ _ _ _ _ _ _ _ _ (by omega)]
    simp [builtRequests]
  | succ k ih =>
    intro i seq hk hi hs
    have hlt : i < n := by omega
    rw [senderLoop_lt _ _ _ _ _ _ _ _ _ hlt]
    simp only [builtRequests]
    rw [ih (i + 1) (wrapInt (seq + 1)) (by omega) (by omega)
      (by intro h; rw [hs hlt]; exact wrapInt_of_range _ (by omega) (by omega))]
    rw [List.range_succ_eq_map, List.map_cons, List.map_map, hs hlt]
    simp only [Nat.cast_zero, add_zero, List.cons.injEq, true_and]
    apply List.map_congr_left
    intro j _
    simp only [Function.comp, Nat.cast_succ]
    congr 1
    ring

theorem builtRequests_senderLoop_env (env env2 : Env) (typ : ICMPType) (mkAddr : IP → Addr)
    (text : String) (target : IP) (n : Int) (id : Nat) :
    ∀ (k : Nat) (i seq : Int), (n - i).toNat = k →
      builtRequests (senderLoop env typ mkAddr text target n id i seq) =
        builtRequests (senderLoop env2 typ mkAddr text target n id i seq) := by
  intro k
  induction k with
  | zero =>
    intro i seq hk
    rw [senderLoop_ge _ _ _ _ _ _ _ _ _ (by omega), senderLoop_ge _ _ _ _ _ _ _ _ _ (by omega)]
  | succ k ih =>
    intro i seq hk
    have hlt : i < n := by omega
    rw [senderLoop_lt _ _ _ _ _ _ _ _ _ hlt, senderLoop_lt _ _ _ _ _ _ _ _ _ hlt]
    simp only [builtRequests]
    rw [ih (i + 1) (wrapInt (seq + 1)) (by omega)]

theorem senderLoop_counts (env : Env) (typ : ICMPType) (mkAddr : IP → Addr)
    (text : String) (target : IP) (n : Int) (id : Nat) :
    ∀ (k : Nat) (i seq : Int), (n - i).toNat = k →
      (builtRequests (senderLoop env typ mkAddr text target n id i seq)).length = k ∧
      (writeAttempts (senderLoop env typ mkAddr text target n id i seq)).length = k ∧
      (senderLoop env typ mkAddr text target n id i seq).getLast? = some Event.done ∧
      (senderLoop env typ mkAddr text target n id i seq).count Event.done = 1 := by
  intro k
  induction k with
  | zero =>
    intro i seq hk
    rw [senderLoop_ge _ _ _ _ _ _ _ _ _ (by omega)]
    simp [builtRequests, writeAttempts]
  | succ k ih =>
    intro i seq hk
    have hlt : i < n := by omega
    rw [senderLoop_lt _ _ _ _ _ _ _ _ _ hlt]
    obtain ⟨h1, h2, h3, h4⟩ := ih (i + 1) (wrapInt (seq + 1)) (by omega)
    refine ⟨by simp [builtRequests, h1], by simp [writeAttempts, h2], ?_, ?_⟩
    · rw [List.getLast?_cons_cons, List.getLast?_cons_cons, List.getLast?_cons_cons]
      cases hrest : senderLoop env typ mkAddr text target n id (i + 1) (wrapInt (seq + 1)) with
      | nil => rw [hrest] at h3; simp at h3
      | cons a l => rw [List.getLast?_cons_cons, ← hrest]; exact h3
    · simp [List.count_cons, h4]

/-- The writes of a sender run pair up with the messages built: iteration `i + j` writes
exactly what `Marshal` returned for its message, once. -/
theorem writeAttempts_senderLoop (env : Env) (typ : ICMPType) (mkAddr : IP → Addr)
    (text : String) (target : IP) (n : Int) (id : Nat) :
    ∀ (k : Nat) (i seq : Int), (n - i).toNat = k →
      writeAttempts (senderLoop env typ mkAddr text target n id i seq) =
        (List.range k).map (fun (j : Nat) =>
          let msg := ((builtRequests (senderLoop env typ mkAddr text target n id i seq)).getD j
            (probe typ id 0))
          (env.marshal (i + j) msg, env.writeTo (i + j) (env.marshal (i + j) msg) (mkAddr target))) := by
  intro k
  induction k with
  | zero =>
    intro i seq hk
    rw [senderLoop_ge _ _ _ _ _ _ _ _ _ (by omega)]
    simp [writeAttempts]
  | succ k ih =>
    intro i seq hk
    have hlt : i < n := by omega
    rw [senderLoop_lt _ _ _ _ _ _ _ _ _ hlt]
    simp only [builtRequests, writeAttempts]
    rw [ih (i + 1) (wrapInt (seq + 1)) (by omega)]
    rw [List.range_succ_eq_map, List.map_cons, List.map_map]
    simp only [Nat.cast_zero, add_zero, List.getD_cons_zero, List.cons.injEq, true_and]
    apply List.map_congr_left
    intro j _
    simp only [Function.comp, Nat.cast_succ, List.getD_cons_succ]
    have e : i + 1 + (j : Int) = i + ((j : Int) + 1) := by ring
    rw [e]

theorem builtRequests_senderLoop_probe (env : Env) (typ : ICMPType) (mkAddr : IP → Addr)
    (text : String) (target : IP) (n : Int) (id : Nat) :
    ∀ (k : Nat) (i seq : Int), (n - i).toNat = k →
      ∀ m ∈ builtRequests (senderLoop env typ mkAddr text target n id i seq),
        ∃ s : Int, m = probe typ id s := by
  intro k
  induction k with
  | zero =>
    intro i seq hk m hm
    rw [senderLoop_ge _ _ _ _ _ _ _ _ _ (by omega)] at hm
    simp [builtRequests] at hm
  | succ k ih =>
    intro i seq hk m hm
    have hlt : i < n := by omega
    rw [senderLoop_lt _ _ _ _ _ _ _ _ _ hlt] at hm
    simp only [builtRequests, List.mem_cons] at hm
    rcases hm with hm | hm
    · exact ⟨seq, hm⟩
    · exact ih (i + 1) (wrapInt (seq + 1)) (by omega) m hm

/-! ## The sender: claims C1, C2, C10 -/

/-- C1: for every probe count `N` (a Go `int`, so at most `math.MaxInt`) and for both
pipelines, the Echo Requests built by the sender carry, in transmission order, the sequence
numbers `1, 2, ..., N`: the `j`-th request (0-based) has `Seq = j + 1`, and there are exactly
`max(N, 0)` of them. -/
theorem sender_sequence_numbers (env : Env) (target : IP) (N sz : Int) (hN : N ≤ maxInt) :
    (builtRequests (icmpSender4 env target N sz)).map Message.seq? =
        (List.range N.toNat).map (fun (j : Nat) => some ((j : Int) + 1)) ∧
    (builtRequests (icmpSender6 env target N sz)).map Message.seq? =
        (List.range N.toNat).map (fun (j : Nat) => some ((j : Int) + 1)) := by
  constructor
  · unfold icmpSender4
    simp only []
    rw [builtRequests_senderLoop_seq env _ _ _ target N _ hN N.toNat 0 1 (by simp) (by omega)
      (by intro _; rfl), List.map_map]
    apply List.map_congr_left
    intro j _
    simp [Message.seq?, probe, add_comm]
  · unfold icmpSender6
    simp only []
    rw [builtRequests_senderLoop_seq env _ _ _ target N _ hN N.toNat 0 1 (by simp) (by omega)
      (by intro _; rfl), List.map_map]
    apply List.map_congr_left
    intro j _
    simp [Message.seq?, probe, add_comm]

/-- Witness of C1: three probes carry the sequence numbers 1, 2, 3. -/
theorem sender_sequence_numbers_witness :
    (3 : Int) ≤ maxInt ∧
    (builtRequests (icmpSender4 (libEnv 4242 (fun _ => none) (fun _ => true))
        [127, 0, 0, 1] 3 56)).map Message.seq? = [some 1, some 2, some 3] ∧
    (builtRequests (icmpSender6 (libEnv 4242 (fun _ => none) (fun _ => true))
        [127, 0, 0, 1] 3 56)).map Message.seq? = [some 1, some 2, some 3] := by
  have h := sender_sequence_numbers (libEnv 4242 (fun _ => none) (fun _ => true))
    [127, 0, 0, 1] 3 56 (by decide)
  refine ⟨by decide, ?_, ?_⟩
  · rw [h.1]; decide
  · rw [h.2]; decide

/-- C2: for every probe count `N` and every outcome of each serialization and each socket
write, both senders make exactly `max(N, 0)` write attempts, one per iteration and each with
whatever `Marshal` returned for that iteration's message; so at most `N` requests are
transmitted, the run ends with its single completion signal, and the messages built do not
depend on the outcomes (replacing the serialization and write outcomes by any others
leaves them unchanged). -/
theorem sender_write_attempts (env : Env) (target : IP) (N sz : Int)
    (marshal2 : Int → Message → Option Bytes) (writeTo2 : Int → Option Bytes → Addr → Bool) :
    ((writeAttempts (icmpSender4 env target N sz)).length = N.toNat ∧
      ((writeAttempts (icmpSender4 env target N sz)).filter
        (fun w => w.1.isSome && w.2)).length ≤ N.toNat ∧
      writeAttempts (icmpSender4 env target N sz) =
        (List.range N.toNat).map (fun (j : Nat) =>
          let msg := (builtRequests (icmpSender4 env target N sz)).getD j
            (probe ipv4ICMPTypeEcho (env.getpid &&& 0xffff) 0)
          (env.marshal j msg, env.writeTo j (env.marshal j msg) (Addr.ipAddr target))) ∧
      (builtRequests (icmpSender4 env target N sz)).length = N.toNat ∧
      (icmpSender4 env target N sz).getLast? = some Event.done ∧
      (icmpSender4 env target N sz).count Event.done = 1 ∧
      builtRequests (icmpSender4 { env with marshal := marshal2, writeTo := writeTo2 }
        target N sz) = builtRequests (icmpSender4 env target N sz)) ∧
    ((writeAttempts (icmpSender6 env target N sz)).length = N.toNat ∧
      ((writeAttempts (icmpSender6 env target N sz)).filter
        (fun w => w.1.isSome && w.2)).length ≤ N.toNat ∧
      writeAttempts (icmpSender6 env target N sz) =
        (List.range N.toNat).map (fun (j : Nat) =>
          let msg := (builtRequests (icmpSender6 env target N sz)).getD j
            (probe ipv6ICMPTypeEchoRequest (env.getpid &&& 0xffff) 0)
          (env.marshal j msg, env.writeTo j (env.marshal j msg) (Addr.udpAddr target))) ∧
      (builtRequests (icmpSender6 env target N sz)).length = N.toNat ∧
      (icmpSender6 env target N sz).getLast? = some Event.done ∧
      (icmpSender6 env target N sz).count Event.done = 1 ∧
      builtRequests (icmpSender6 { env with marshal := marshal2, writeTo := writeTo2 }
        target N sz) = builtRequests (icmpSender6 env target N sz)) := by
  constructor
  · unfold icmpSender4
    simp only []
    obtain ⟨h1, h2, h3, h4⟩ := senderLoop_counts env ipv4ICMPTypeEcho Addr.ipAddr
      "Отправлен ICMP-запрос для IPv4 на" target N (env.getpid &&& 0xffff) N.toNat 0 1 (by simp)
    refine ⟨h2, ?_, ?_, h1, h3, h4, ?_⟩
    · exact le_trans (List.length_filter_le _ _) (le_of_eq h2)
    · rw [writeAttempts_senderLoop env _ _ _ target N _ N.toNat 0 1 (by simp)]
      simp
    · exact builtRequests_senderLoop_env _ env _ _ _ target N _ N.toNat 0 1 (by simp)
  · unfold icmpSender6
    simp only []
    obtain ⟨h1, h2, h3, h4⟩ := senderLoop_counts env ipv6ICMPTypeEchoRequest Addr.udpAddr
      "Отправлен ICMP-запрос для IPv6 на" target N (env.getpid &&& 0xffff) N.toNat 0 1 (by simp)
    refine ⟨h2, ?_, ?_, h1, h3, h4, ?_⟩
    · exact le_trans (List.length_filter_le _ _) (le_of_eq h2)
    · rw [writeAttempts_senderLoop env _ _ _ target N _ N.toNat 0 1 (by simp)]
      simp
    · exact builtRequests_senderLoop_env _ env _ _ _ target N _ N.toNat 0 1 (by simp)

/-- C10: the packet-size parameter has no effect on the run of either sender, and every
request built has code 0, the echo-request type of its IP version (8 for ICMPv4, 128 for
ICMPv6) and the four bytes of `"ping"` as payload. -/
theorem sender_ignores_packet_size (env : Env) (target : IP) (N sz sz2 : Int) :
    icmpSender4 env target N sz = icmpSender4 env target N sz2 ∧
    icmpSender6 env target N sz = icmpSender6 env target N sz2 ∧
    (∀ m ∈ builtRequests (icmpSender4 env target N sz),
      m.Code = 0 ∧ m.Type_ = ICMPType.ipv4 8 ∧ m.data? = some [112, 105, 110, 103]) ∧
    (∀ m ∈ builtRequests (icmpSender6 env target N sz),
      m.Code = 0 ∧ m.Type_ = ICMPType.ipv6 128 ∧ m.data? = some [112, 105, 110, 103]) := by
  refine ⟨rfl, rfl, ?_, ?_⟩
  · intro m hm
    obtain ⟨s, rfl⟩ := builtRequests_senderLoop_probe env ipv4ICMPTypeEcho Addr.ipAddr
      "Отправлен ICMP-запрос для IPv4 на" target N (env.getpid &&& 0xffff) N.toNat 0 1
      (by simp) m hm
    exact ⟨rfl, rfl, by simp [Message.data?, probe, goBytes_ping]⟩
  · intro m hm
    obtain ⟨s, rfl⟩ := builtRequests_senderLoop_probe env ipv6ICMPTypeEchoRequest Addr.udpAddr
      "Отправлен ICMP-запрос для IPv6 на" target N (env.getpid &&& 0xffff) N.toNat 0 1
      (by simp) m hm
    exact ⟨rfl, rfl, by simp [Message.data?, probe, goBytes_ping]⟩

/-! ## Socket binding: claim C7 -/

/-- C7: the address `ping6` passes to `net.ListenPacket` is `base ++ suffix`, where `base`
is the source if it is non-empty and `"::"` otherwise, and `suffix` is `"%" ++ zone` if the
zone is non-empty and empty otherwise; with no source and no zone it is exactly `"::"`.
`ping4` passes the source string through unchanged. -/
theorem ping6_bind_address (zone source : String) :
    (ping6Listen zone source).address =
      (if source ≠ "" then source else "::") ++ (if zone ≠ "" then "%" ++ zone else "") ∧
    (ping6Listen zone source).network = "ip6:ipv6-icmp" ∧
    (ping6Listen "" "").address = "::" ∧
    (ping4Listen source).address = source ∧
    (ping4Listen source).network = "ip4:icmp" := by
  refine ⟨?_, rfl, by decide, rfl, rfl⟩
  unfold ping6Listen
  simp only [utf8ByteSize_pos_iff]
  by_cases hs : source = "" <;> by_cases hz : zone = "" <;> simp [hs, hz]

/-! ## The receiver: auxiliary lemmas -/

theorem notices_append (a b : List Event) : notices (a ++ b) = notices a ++ notices b := by
  induction a with
  | nil => rfl
  | cons e a ih => cases e <;> simp [notices, ih]

theorem readAttempts_append (a b : List Event) :
    readAttempts (a ++ b) = readAttempts a ++ readAttempts b := by
  induction a with
  | nil => rfl
  | cons e a ih => cases e <;> simp [readAttempts, ih]

theorem receiverLoop_lt (env : Env) (proto : Nat) (target : IP) (n : Int) (id : Nat) (i : Int)
    (h : i < n) :
    receiverLoop env proto target n id i =
      if (receiverStep env.parseMessage proto target id (env.readFrom i)).2 then
        (receiverStep env.parseMessage proto target id (env.readFrom i)).1 ++
          receiverLoop env proto target n id (i + 1)
      else
        (receiverStep env.parseMessage proto target id (env.readFrom i)).1 := by
  rw [receiverLoop]
  simp [h]

theorem receiverLoop_ge (env : Env) (proto : Nat) (target : IP) (n : Int) (id : Nat) (i : Int)
    (h : ¬ i < n) : receiverLoop env proto target n id i = [Event.done] := by
  rw [receiverLoop]
  simp [h]

theorem receiverStep_error (parse : Nat → Bytes → Option Message) (proto : Nat) (target : IP)
    (id : Nat) : receiverStep parse proto target id none = ([Event.readFrom none], true) := rfl

theorem receiverStep_parse_failure (parse : Nat → Bytes → Option Message) (proto : Nat)
    (target : IP) (id : Nat) (pkt : Bytes) (h : parse proto (pkt.take 1500) = none) :
    receiverStep parse proto target id (some pkt) =
      ([Event.readFrom (some (pkt.take 1500)), Event.panic], false) := by
  simp [receiverStep, h]

theorem receiverStep_match (parse : Nat → Bytes → Option Message) (proto : Nat)
    (target : IP) (id : Nat) (pkt : Bytes) (msg : Message) (e : Echo)
    (h : parse proto (pkt.take 1500) = some msg) (hb : msg.Body = some (.echo e))
    (hid : e.ID = id) :
    receiverStep parse proto target id (some pkt) =
      ([Event.readFrom (some (pkt.take 1500)), Event.printf target e.Seq], true) := by
  simp [receiverStep, h, hb, hid]

theorem receiverStep_foreign (parse : Nat → Bytes → Option Message) (proto : Nat)
    (target : IP) (id : Nat) (pkt : Bytes) (msg : Message) (e : Echo)
    (h : parse proto (pkt.take 1500) = some msg) (hb : msg.Body = some (.echo e))
    (hid : e.ID ≠ id) :
    receiverStep parse proto target id (some pkt) =
      ([Event.readFrom (some (pkt.take 1500))], true) := by
  simp [receiverStep, h, hb, hid]

theorem receiverStep_not_echo (parse : Nat → Bytes → Option Message) (proto : Nat)
    (target : IP) (id : Nat) (pkt : Bytes) (msg : Message)
    (h : parse proto (pkt.take 1500) = some msg) (hb : ∀ e, msg.Body ≠ some (.echo e)) :
    receiverStep parse proto target id (some pkt) =
      ([Event.readFrom (some (pkt.take 1500))], true) := by
  unfold receiverStep
  simp only [h]

/-- Every notice of one receiver iteration comes from a parsed Echo body with the session
identifier, and carries that body's sequence number. -/
theorem receiverStep_notice (parse : Nat → Bytes → Option Message) (proto : Nat)
    (target : IP) (id : Nat) (r : Option Bytes) (seq : Int)
    (h : seq ∈ notices (receiverStep parse proto target id r).1) :
    ∃ pkt msg e, r = some pkt ∧ parse proto (pkt.take 1500) = some msg ∧
      msg.Body = some (.echo e) ∧ e.ID = id ∧ e.Seq = seq := by
  cases r with
  | none => simp [receiverStep, notices] at h
  | some pkt =>
    cases hp : parse proto (pkt.take 1500) with
    | none => rw [receiverStep_parse_failure _ _ _ _ _ hp] at h; simp [notices] at h
    | some msg =>
      by_cases hb : ∃ e, msg.Body = some (.echo e)
      · obtain ⟨e, he⟩ := hb
        by_cases hid : e.ID = id
        · rw [receiverStep_match _ _ _ _ _ _ _ hp he hid] at h
          simp [notices] at h
          exact ⟨pkt, msg, e, rfl, hp, he, hid, h.symm⟩
        · rw [receiverStep_foreign _ _ _ _ _ _ _ hp he hid] at h
          simp [notices] at h
      · rw [receiverStep_not_echo _ _ _ _ _ _ hp (fun e he => hb ⟨e, he⟩)] at h
        simp [notices] at h

theorem receiverLoop_notice (env : Env) (proto : Nat) (target : IP) (n : Int) (id : Nat) :
    ∀ (k : Nat) (i : Int), (n - i).toNat = k → 0 ≤ i →
      ∀ seq ∈ notices (receiverLoop env proto target n id i),
        ∃ j pkt msg e, 0 ≤ j ∧ j < n ∧ env.readFrom j = some pkt ∧
          env.parseMessage proto (pkt.take 1500) = some msg ∧
          msg.Body = some (.echo e) ∧ e.ID = id ∧ e.Seq = seq := by
  intro k
  induction k with
  | zero =>
    intro i hk _ seq hs
    rw [receiverLoop_ge _ _ _ _ _ _ (by omega)] at hs
    simp [notices] at hs
  | succ k ih =>
    intro i hk hi seq hs
    have hlt : i < n := by omega
    rw [receiverLoop_lt _ _ _ _ _ _ hlt] at hs
    have hstep : seq ∈ notices (receiverStep env.parseMessage proto target id (env.readFrom i)).1 ∨
        seq ∈ notices (receiverLoop env proto target n id (i + 1)) := by
      split at hs
      · rw [notices_append, List.mem_append] at hs
        exact hs
      · exact Or.inl hs
    rcases hstep with h | h
    · obtain ⟨pkt, msg, e, h1, h2, h3, h4, h5⟩ := receiverStep_notice _ _ _ _ _ _ h
      exact ⟨i, pkt, msg, e, hi, hlt, h1, h2, h3, h4, h5⟩
    · exact ih (i + 1) (by omega) (by omega) seq h

theorem take_header (a b c d e f g h : Nat) (rest : Bytes) :
    List.take 1500 (a :: b :: c :: d :: e :: f :: g :: h :: rest) =
      a :: b :: c :: d :: e :: f :: g :: h :: List.take 1492 rest := by
  simp [List.take]

theorem decode16 (x : Nat) : x / 256 * 256 + x % 256 = x := by
  omega

theorem decode16_int (S : Int) :
    (((S % 65536).toNat / 256 * 256 + (S % 65536).toNat % 256 : Nat) : Int) = S % 65536 := by
  have h0 : 0 ≤ S % 65536 := Int.emod_nonneg _ (by decide)
  rw [decode16]
  exact Int.toNat_of_nonneg h0

/-- Serializing an echo message (request or reply, either IP version) whose identifier is
the session's and feeding the bytes to one receiver iteration yields one notice, with the
sequence number reduced to 16 bits. -/
theorem receiverStep_roundtrip (target : IP) (typ : ICMPType) (proto id : Nat) (S : Int)
    (data : Bytes) (hid : id < 65536)
    (h : ((typ = .ipv4 0 ∨ typ = .ipv4 8) ∧ proto = 1) ∨
      ((typ = .ipv6 128 ∨ typ = .ipv6 129) ∧ proto = 58)) :
    ∃ wire, Marshal ⟨typ, 0, 0, some (.echo ⟨id, S, data⟩)⟩ = some wire ∧
      (ParseMessage proto (wire.take 1500)).map (fun m => m.Type_) = some typ ∧
      receiverStep ParseMessage proto target id (some wire) =
        ([Event.readFrom (some (wire.take 1500)), Event.printf target (S % 65536)], true) := by
  have hid2 : id % 65536 = id := Nat.mod_eq_of_lt hid
  have hd := decode16 id
  have hs := decode16_int S
  rcases h with ⟨h | h, hp⟩ | ⟨h | h, hp⟩ <;> subst h <;> subst hp <;>
    refine ⟨_, rfl, ?_, ?_⟩ <;>
    simp [Marshal, Echo.Marshal, ParseMessage, parseEcho, receiverStep, take_header, hid2, hd, hs]

/-- A receiver run of one iteration whose read succeeds and whose step goes on. -/
theorem receiverLoop_single (env : Env) (proto : Nat) (target : IP) (id : Nat) (evs : List Event)
    (h : receiverStep env.parseMessage proto target id (env.readFrom 0) = (evs, true)) :
    receiverLoop env proto target 1 id 0 = evs ++ [Event.done] := by
  rw [receiverLoop_lt _ _ _ _ _ _ (by decide), h]
  simp only [if_true]
  rw [receiverLoop_ge _ _ _ _ _ _ (by decide)]

/-! ## The receiver: claims C3, C4, C5 -/

/-- C3: every notice of either receiver comes from a packet read in some iteration whose
parsed Echo identifier equals the session identifier `pid & 0xffff`; that identifier lies
in `0..65535` and is the one both senders stamp on every request; a packet whose parsed
Echo identifier differs from it produces no notice. -/
theorem receiver_reports_session_identifier (env : Env) (target : IP) (N sz : Int) :
    (∀ seq ∈ notices (icmpReceiver4 env target N),
      ∃ j pkt msg e, 0 ≤ j ∧ j < N ∧ env.readFrom j = some pkt ∧
        env.parseMessage 1 (pkt.take 1500) = some msg ∧ msg.Body = some (.echo e) ∧
        e.ID = env.getpid &&& 0xffff ∧ e.Seq = seq) ∧
    (∀ seq ∈ notices (icmpReceiver6 env target N),
      ∃ j pkt msg e, 0 ≤ j ∧ j < N ∧ env.readFrom j = some pkt ∧
        env.parseMessage 58 (pkt.take 1500) = some msg ∧ msg.Body = some (.echo e) ∧
        e.ID = env.getpid &&& 0xffff ∧ e.Seq = seq) ∧
    env.getpid &&& 0xffff < 65536 ∧
    (∀ m ∈ builtRequests (icmpSender4 env target N sz),
      m.id? = some (env.getpid &&& 0xffff)) ∧
    (∀ m ∈ builtRequests (icmpSender6 env target N sz),
      m.id? = some (env.getpid &&& 0xffff)) ∧
    (∀ (proto : Nat) (pkt : Bytes) (msg : Message) (e : Echo),
      env.parseMessage proto (pkt.take 1500) = some msg → msg.Body = some (.echo e) →
      e.ID ≠ env.getpid &&& 0xffff →
      notices (receiverStep env.parseMessage proto target (env.getpid &&& 0xffff)
        (some pkt)).1 = []) := by
  refine ⟨?_, ?_, and_mask_lt _, ?_, ?_, ?_⟩
  · exact receiverLoop_notice env 1 target N _ N.toNat 0 (by simp) (le_refl _)
  · exact receiverLoop_notice env 58 target N _ N.toNat 0 (by simp) (le_refl _)
  · intro m hm
    obtain ⟨s, rfl⟩ := builtRequests_senderLoop_probe env ipv4ICMPTypeEcho Addr.ipAddr
      "Отправлен ICMP-запрос для IPv4 на" target N (env.getpid &&& 0xffff) N.toNat 0 1
      (by simp) m hm
    rfl
  · intro m hm
    obtain ⟨s, rfl⟩ := builtRequests_senderLoop_probe env ipv6ICMPTypeEchoRequest Addr.udpAddr
      "Отправлен ICMP-запрос для IPv6 на" target N (env.getpid &&& 0xffff) N.toNat 0 1
      (by simp) m hm
    rfl
  · intro proto pkt msg e hp hb hid
    rw [receiverStep_foreign _ _ _ _ _ _ _ hp hb hid]
    rfl

/-- Witness of C3: a well-formed echo reply carrying the identifier 7 is read by a process
whose session identifier is 1234; no notice is printed. -/
theorem receiver_reports_session_identifier_witness :
    notices (receiverStep ParseMessage 1 [127, 0, 0, 1] (1234 &&& 0xffff)
      (some [0, 0, 0, 0, 0, 7, 0, 1])).1 = [] :=
  (receiver_reports_session_identifier (libEnv 1234 (fun _ => none) (fun _ => true))
    [127, 0, 0, 1] 1 56).2.2.2.2.2 1 [0, 0, 0, 0, 0, 7, 0, 1]
    ⟨.ipv4 0, 0, 0, some (.echo ⟨7, 1, []⟩)⟩ ⟨7, 1, []⟩ (by decide) rfl (by decide)

/-- C4: round trip through the receiver.  An echo reply built with the session identifier
and a 16-bit sequence number `S`, serialized and delivered as the outcome of one successful
read, makes the receiver print exactly one notice, which carries `S`; and in general one
iteration prints the notice `seq` if and only if its read succeeded, the bytes parse, the
body is an Echo carrying the session identifier, and `seq` is the sequence number parsed;
it never prints more than one notice. -/
theorem correlator_round_trip (pid : Nat) (target : IP) (S : Int) (data : Bytes)
    (writes : Int → Bool) (hS0 : 0 ≤ S) (hS : S < 65536) :
    (∃ wire,
      Marshal ⟨ipv4ICMPTypeEchoReply, 0, 0, some (.echo ⟨pid &&& 0xffff, S, data⟩)⟩ = some wire ∧
      icmpReceiver4 (libEnv pid (fun _ => some wire) writes) target 1 =
        [Event.readFrom (some (wire.take 1500)), Event.printf target S, Event.done]) ∧
    (∃ wire,
      Marshal ⟨ipv6ICMPTypeEchoReply, 0, 0, some (.echo ⟨pid &&& 0xffff, S, data⟩)⟩ = some wire ∧
      icmpReceiver6 (libEnv pid (fun _ => some wire) writes) target 1 =
        [Event.readFrom (some (wire.take 1500)), Event.printf target S, Event.done]) ∧
    (∀ (parse : Nat → Bytes → Option Message) (proto : Nat) (r : Option Bytes) (seq : Int),
      seq ∈ notices (receiverStep parse proto target (pid &&& 0xffff) r).1 ↔
        ∃ pkt msg e, r = some pkt ∧ parse proto (pkt.take 1500) = some msg ∧
          msg.Body = some (.echo e) ∧ e.ID = pid &&& 0xffff ∧ e.Seq = seq) ∧
    (∀ (parse : Nat → Bytes → Option Message) (proto : Nat) (r : Option Bytes),
      (notices (receiverStep parse proto target (pid &&& 0xffff) r).1).length ≤ 1) := by
  have hmod : S % 65536 = S := Int.emod_eq_of_lt hS0 hS
  refine ⟨?_, ?_, ?_, ?_⟩
  · obtain ⟨wire, h1, _, h3⟩ := receiverStep_roundtrip target (.ipv4 0) 1 (pid &&& 0xffff) S data
      (and_mask_lt pid) (Or.inl ⟨Or.inl rfl, rfl⟩)
    refine ⟨wire, h1, ?_⟩
    rw [hmod] at h3
    exact receiverLoop_single (libEnv pid (fun _ => some wire) writes) 1 target _ _ h3
  · obtain ⟨wire, h1, _, h3⟩ := receiverStep_roundtrip target (.ipv6 129) 58 (pid &&& 0xffff) S
      data (and_mask_lt pid) (Or.inr ⟨Or.inr rfl, rfl⟩)
    refine ⟨wire, h1, ?_⟩
    rw [hmod] at h3
    exact receiverLoop_single (libEnv pid (fun _ => some wire) writes) 58 target _ _ h3
  · intro parse proto r seq
    constructor
    · exact receiverStep_notice parse proto target _ r seq
    · rintro ⟨pkt, msg, e, rfl, hp, hb, hid, rfl⟩
      rw [receiverStep_match _ _ _ _ _ _ _ hp hb hid]
      simp [notices]
  · intro parse proto r
    cases r with
    | none => simp [receiverStep, notices]
    | some pkt =>
      cases hp : parse proto (pkt.take 1500) with
      | none => rw [receiverStep_parse_failure _ _ _ _ _ hp]; simp [notices]
      | some msg =>
        by_cases hb : ∃ e, msg.Body = some (.echo e)
        · obtain ⟨e, he⟩ := hb
          by_cases hid : e.ID = pid &&& 0xffff
          · rw [receiverStep_match _ _ _ _ _ _ _ hp he hid]; simp [notices]
          · rw [receiverStep_foreign _ _ _ _ _ _ _ hp he hid]; simp [notices]
        · rw [receiverStep_not_echo _ _ _ _ _ _ hp (fun e he => hb ⟨e, he⟩)]; simp [notices]

/-- Witness of C4: the echo reply with identifier 1234 and sequence number 7 is reported by
the IPv4 receiver of process 1234, once, with sequence number 7. -/
theorem correlator_round_trip_witness :
    (0 : Int) ≤ 7 ∧ (7 : Int) < 65536 ∧
    ∃ wire,
      Marshal ⟨ipv4ICMPTypeEchoReply, 0, 0,
        some (.echo ⟨1234 &&& 0xffff, 7, [112, 105, 110, 103]⟩)⟩ = some wire ∧
      icmpReceiver4 (libEnv 1234 (fun _ => some wire) (fun _ => true)) [127, 0, 0, 1] 1 =
        [Event.readFrom (some (wire.take 1500)), Event.printf [127, 0, 0, 1] 7, Event.done] :=
  ⟨by decide, by decide,
    (correlator_round_trip 1234 [127, 0, 0, 1] 7 [112, 105, 110, 103] (fun _ => true)
      (by decide) (by decide)).1⟩

/-- Whatever the parser, a packet whose parsed message has an Echo body with the session
identifier is reported by a one-read run of either receiver, without regard to the type of
the message: an echo request is reported just like an echo reply. -/
theorem receiverLoop_reports_any_type (env : Env) (proto : Nat) (target : IP) (pkt : Bytes)
    (msg : Message) (e : Echo) (hr : env.readFrom 0 = some pkt)
    (hp : env.parseMessage proto (pkt.take 1500) = some msg)
    (hb : msg.Body = some (.echo e)) (hid : e.ID = env.getpid &&& 0xffff) :
    receiverLoop env proto target 1 (env.getpid &&& 0xffff) 0 =
      [Event.readFrom (some (pkt.take 1500)), Event.printf target e.Seq, Event.done] := by
  have h := receiverStep_match env.parseMessage proto target _ pkt msg e hp hb hid
  rw [← hr] at h
  exact receiverLoop_single env proto target _ _ h

/-- C5, the code at a failing input: process 1234 sends one probe to 127.0.0.1; the bytes it
wrote (an ICMPv4 echo request, type 8) come back as the outcome of the receiver's read and
are reported with sequence number 1, although the message is not an echo reply.  The same
holds for the ICMPv6 pipeline (type 128).  With three reads on the loopback, delivering the
first probe, its reply and the second probe, the notices are 1, 1, 2: the first probe is
reported twice and the read budget is spent before the second reply. -/
theorem receiver_reports_echo_request :
    writeAttempts (icmpSender4 (libEnv 1234 (fun _ => none) (fun _ => true))
        [127, 0, 0, 1] 1 56) =
      [(some [8, 0, 20, 92, 4, 210, 0, 1, 112, 105, 110, 103], true)] ∧
    (ParseMessage 1 [8, 0, 20, 92, 4, 210, 0, 1, 112, 105, 110, 103]).map (fun m => m.Type_) =
      some ipv4ICMPTypeEcho ∧
    notices (icmpReceiver4 (libEnv 1234
        (fun _ => some [8, 0, 20, 92, 4, 210, 0, 1, 112, 105, 110, 103]) (fun _ => true))
        [127, 0, 0, 1] 1) = [1] ∧
    writeAttempts (icmpSender6 (libEnv 1234 (fun _ => none) (fun _ => true))
        [0, 0, 0, 0, 0, 0, 0, 0, 0, 0, 0, 0, 0, 0, 0, 1] 1 56) =
      [(some [128, 0, 0, 0, 4, 210, 0, 1, 112, 105, 110, 103], true)] ∧
    (ParseMessage 58 [128, 0, 0, 0, 4, 210, 0, 1, 112, 105, 110, 103]).map (fun m => m.Type_) =
      some ipv6ICMPTypeEchoRequest ∧
    notices (icmpReceiver6 (libEnv 1234
        (fun _ => some [128, 0, 0, 0, 4, 210, 0, 1, 112, 105, 110, 103]) (fun _ => true))
        [0, 0, 0, 0, 0, 0, 0, 0, 0, 0, 0, 0, 0, 0, 0, 1] 1) = [1] ∧
    Marshal ⟨ipv4ICMPTypeEchoReply, 0, 0, some (.echo ⟨1234, 1, [112, 105, 110, 103]⟩)⟩ =
      some [0, 0, 28, 92, 4, 210, 0, 1, 112, 105, 110, 103] ∧
    Marshal (probe ipv4ICMPTypeEcho 1234 2) =
      some [8, 0, 20, 91, 4, 210, 0, 2, 112, 105, 110, 103] ∧
    notices (icmpReceiver4 (libEnv 1234
        (fun i =>
          if i = 0 then some [8, 0, 20, 92, 4, 210, 0, 1, 112, 105, 110, 103]
          else if i = 1 then some [0, 0, 28, 92, 4, 210, 0, 1, 112, 105, 110, 103]
          else some [8, 0, 20, 91, 4, 210, 0, 2, 112, 105, 110, 103])
        (fun _ => true)) [127, 0, 0, 1] 3) = [1, 1, 2] := by
  have hid : (1234 &&& 0xffff : Nat) = 1234 := by decide
  refine ⟨?_, by decide, ?_, ?_, by decide, ?_, by decide, by decide, ?_⟩
  · unfold icmpSender4
    rw [senderLoop_lt _ _ _ _ _ _ _ _ _ (by decide), senderLoop_ge _ _ _ _ _ _ _ _ _ (by decide)]
    simp only [libEnv, writeAttempts]
    decide
  · simp [icmpReceiver4, receiverLoop, receiverStep, libEnv, ParseMessage, parseEcho, notices,
      hid]
  · unfold icmpSender6
    rw [senderLoop_lt _ _ _ _ _ _ _ _ _ (by decide), senderLoop_ge _ _ _ _ _ _ _ _ _ (by decide)]
    simp only [libEnv, writeAttempts]
    decide
  · simp [icmpReceiver6, receiverLoop, receiverStep, libEnv, ParseMessage, parseEcho, notices,
      hid]
  · simp [icmpReceiver4, receiverLoop, receiverStep, libEnv, ParseMessage, parseEcho, notices,
      hid]

/-! ## The receiver: parse failures (claims C8, C9) -/

/-- One receiver iteration makes exactly one read and prints at most one notice; it goes on
unless the bytes read fail to parse. -/
theorem receiverStep_counts (parse : Nat → Bytes → Option Message) (proto : Nat) (target : IP)
    (id : Nat) (r : Option Bytes) :
    (readAttempts (receiverStep parse proto target id r).1).length = 1 ∧
    (notices (receiverStep parse proto target id r).1).length ≤ 1 ∧
    ((receiverStep parse proto target id r).2 = false ↔
      ∃ pkt, r = some pkt ∧ parse proto (pkt.take 1500) = none) := by
  cases r with
  | none => simp [receiverStep, notices, readAttempts]
  | some pkt =>
    cases hp : parse proto (pkt.take 1500) with
    | none => rw [receiverStep_parse_failure _ _ _ _ _ hp]; simp [notices, readAttempts, hp]
    | some msg =>
      by_cases hb : ∃ e, msg.Body = some (.echo e)
      · obtain ⟨e, he⟩ := hb
        by_cases hid : e.ID = id
        · rw [receiverStep_match _ _ _ _ _ _ _ hp he hid]; simp [notices, readAttempts, hp]
        · rw [receiverStep_foreign _ _ _ _ _ _ _ hp he hid]; simp [notices, readAttempts, hp]
      · rw [receiverStep_not_echo _ _ _ _ _ _ hp (fun e he => hb ⟨e, he⟩)]
        simp [notices, readAttempts, hp]

/-- The read budget of the receiver loop: never more than the remaining iterations, for reads
and for notices; and exactly that many reads, followed by the completion signal, when every
packet delivered parses. -/
theorem receiverLoop_budget (env : Env) (proto : Nat) (target : IP) (n : Int) (id : Nat) :
    ∀ (k : Nat) (i : Int), (n - i).toNat = k →
      (readAttempts (receiverLoop env proto target n id i)).length ≤ k ∧
      (notices (receiverLoop env proto target n id i)).length ≤ k ∧
      ((∀ j pkt, i ≤ j → j < n → env.readFrom j = some pkt →
          env.parseMessage proto (pkt.take 1500) ≠ none) →
        (readAttempts (receiverLoop env proto target n id i)).length = k ∧
        (receiverLoop env proto target n id i).getLast? = some Event.done) := by
  intro k
  induction k with
  | zero =>
    intro i hk
    rw [receiverLoop_ge _ _ _ _ _ _ (by omega)]
    simp [notices, readAttempts]
  | succ k ih =>
    intro i hk
    have hlt : i < n := by omega
    obtain ⟨h1, h2, h3⟩ := ih (i + 1) (by omega)
    obtain ⟨s1, s2, s3⟩ := receiverStep_counts env.parseMessage proto target id (env.readFrom i)
    rw [receiverLoop_lt _ _ _ _ _ _ hlt]
    cases hgo : (receiverStep env.parseMessage proto target id (env.readFrom i)).2 with
    | true =>
      simp only [if_true, readAttempts_append, notices_append, List.length_append]
      refine ⟨by omega, by omega, ?_⟩
      intro hok
      obtain ⟨h4, h5⟩ := h3 (fun j pkt hj hjn => hok j pkt (by omega) hjn)
      refine ⟨by omega, ?_⟩
      rw [List.getLast?_append, h5]
      rfl
    | false =>
      simp only [Bool.false_eq_true, if_false]
      refine ⟨by omega, by omega, ?_⟩
      intro hok
      obtain ⟨pkt, hr, hp⟩ := s3.mp hgo
      exact absurd hp (hok i pkt (le_refl _) hlt hr)


/-- The completion signal is never sent from inside a receiver iteration. -/
theorem receiverStep_no_done (parse : Nat → Bytes → Option Message) (proto : Nat) (target : IP)
    (id : Nat) (r : Option Bytes) :
    (receiverStep parse proto target id r).1.count Event.done = 0 := by
  cases r with
  | none => simp [receiverStep]
  | some pkt =>
    cases hp : parse proto (pkt.take 1500) with
    | none => rw [receiverStep_parse_failure _ _ _ _ _ hp]; simp
    | some msg =>
      by_cases hb : ∃ e, msg.Body = some (.echo e)
      · obtain ⟨e, he⟩ := hb
        by_cases hid : e.ID = id
        · rw [receiverStep_match _ _ _ _ _ _ _ hp he hid]; simp
        · rw [receiverStep_foreign _ _ _ _ _ _ _ hp he hid]; simp
      · rw [receiverStep_not_echo _ _ _ _ _ _ hp (fun e he => hb ⟨e, he⟩)]; simp

/-- The receiver loop sends at most one completion signal, and exactly one when every
packet delivered parses. -/
theorem receiverLoop_done_count (env : Env) (proto : Nat) (target : IP) (n : Int) (id : Nat) :
    ∀ (k : Nat) (i : Int), (n - i).toNat = k →
      (receiverLoop env proto target n id i).count Event.done ≤ 1 ∧
      ((∀ j pkt, i ≤ j → j < n → env.readFrom j = some pkt →
          env.parseMessage proto (pkt.take 1500) ≠ none) →
        (receiverLoop env proto target n id i).count Event.done = 1) := by
  intro k
  induction k with
  | zero =>
    intro i hk
    rw [receiverLoop_ge _ _ _ _ _ _ (by omega)]
    simp
  | succ k ih =>
    intro i hk
    have hlt : i < n := by omega
    obtain ⟨h1, h2⟩ := ih (i + 1) (by omega)
    have s0 := receiverStep_no_done env.parseMessage proto target id (env.readFrom i)
    obtain ⟨_, _, s3⟩ := receiverStep_counts env.parseMessage proto target id (env.readFrom i)
    rw [receiverLoop_lt _ _ _ _ _ _ hlt]
    cases hgo : (receiverStep env.parseMessage proto target id (env.readFrom i)).2 with
    | true =>
      simp only [if_true, List.count_append, s0, Nat.zero_add]
      exact ⟨h1, fun hok => h2 (fun j pkt hj hjn => hok j pkt (by omega) hjn)⟩
    | false =>
      simp only [Bool.false_eq_true, if_false, s0]
      refine ⟨Nat.zero_le _, ?_⟩
      intro hok
      obtain ⟨pkt, hr, hp⟩ := s3.mp hgo
      exact absurd hp (hok i pkt (le_refl _) hlt hr)

end Ping
